import Mathlib

/-!
Shallow embedding of the `OptimizedLoadScheduling` scheduler from
`src/xdist/scheduler/load_optimized.py` (pytest-xdist).  Worker nodes are
identified by natural numbers; item identifiers and item indices are natural
numbers.  The scheduler state gathers the fields of the Python object that
the scheduling logic reads and writes; the externally visible actions
(dispatching items to a node, sending the shutdown signal, the abort
diagnostic) are recorded as a list of events.  Routine status logging at
the end of the two methods is out of scope per the specification, which
excludes logging and reporting from the core.  Test durations are modelled
as rationals, the threshold comparison `duration >= 0.1` becoming a
comparison in `ℚ`.
-/

/-- Externally visible actions of the scheduler: dispatching a batch of item
indices to a node, sending the one-shot shutdown signal to a node, and
emitting a diagnostic message. -/
inductive Event where
  | sendTests (node : Nat) (items : List Nat)
  | shutdown (node : Nat)
  | log (msg : String)
deriving DecidableEq, Repr

/-- The scheduler state.  `collection`, `pending`, `node2pending`,
`node2collection` and `collection_is_completed` are the base class fields
described by the specification (per-node maps are insertion-ordered
association lists, as Python dicts are); `shuttingDown` records which nodes
have had their external shutting_down flag set; `completed` records the
indices whose completion has been reported (implicit in the Python state,
made explicit for bookkeeping); `minQueueSize` and `maxQueueSize` are the
`_min_queue_size` and `_max_queue_size` attributes, both set to 2 by the
constructor. -/
structure SchedState where
  collection : Option (List Nat)
  pending : List Nat
  node2pending : List (Nat × List Nat)
  node2collection : List (Nat × List Nat)
  shuttingDown : List Nat
  completed : List Nat
  collection_is_completed : Bool
  minQueueSize : Nat
  maxQueueSize : Nat
deriving DecidableEq, Repr

/-- Lookup in an insertion-ordered association list (Python dict read). -/
def lookupAssoc : List (Nat × List Nat) → Nat → Option (List Nat)
  | [], _ => none
  | (a, v) :: rest, k => if a = k then some v else lookupAssoc rest k

/-- Update the entry of a key in an association list by applying a function
to its value (Python in-place mutation of a dict value). -/
def updateAssoc : List (Nat × List Nat) → Nat → (List Nat → List Nat) → List (Nat × List Nat)
  | [], _, _ => []
  | (a, v) :: rest, k, f =>
      if a = k then (a, f v) :: rest else (a, v) :: updateAssoc rest k f

/-- Modelled from the spec: the base class property `self.nodes` (the base
`LoadScheduling` class is not under src/), the currently known nodes: the
keys of `node2pending` in insertion order. -/
def SchedState.nodes (s : SchedState) : List Nat :=
  s.node2pending.map Prod.fst

/-- Modelled from the spec: the base class method `_send_tests(node, num)`
(not under src/): move up to `num` indices from the front of Pending to the
queue of the node and dispatch them to the node, fire and forget; when
Pending is exhausted nothing is dispatched. -/
def sendTests (s : SchedState) (node : Nat) (num : Nat) : SchedState × List Event :=
  if (s.pending.take num).isEmpty then (s, [])
  else
    ({ s with
        pending := s.pending.drop num,
        node2pending :=
          updateAssoc s.node2pending node (fun q => q ++ s.pending.take num) },
     [Event.sendTests node (s.pending.take num)])

/-- Modelled from the spec: `node.shutdown()` on the external Node
collaborator: send the one-shot shutdown signal and set the draining flag
of the node. -/
def nodeShutdown (s : SchedState) (node : Nat) : SchedState × List Event :=
  ({ s with shuttingDown := node :: s.shuttingDown }, [Event.shutdown node])

/-- `OptimizedLoadScheduling.check_schedule(node, duration)`, translated
clause by clause from src/xdist/scheduler/load_optimized.py.  The result is
`none` when the Python code would raise a KeyError on the
`self.node2pending[node]` lookup (unknown node). -/
def check_schedule (s : SchedState) (node : Nat) (duration : ℚ) :
    Option (SchedState × List Event) :=
  if node ∈ s.shuttingDown then
    some (s, [])
  else if s.pending = [] then
    some (nodeShutdown s node)
  else
    match lookupAssoc s.node2pending node with
    | none => none
    | some node_pending =>
        let items_per_node_min := s.minQueueSize
        let items_per_node_max := s.maxQueueSize
        if node_pending.length < items_per_node_min then
          if (1/10 : ℚ) ≤ duration ∧ s.maxQueueSize ≤ node_pending.length then
            some (s, [])
          else
            some (sendTests s node (items_per_node_max - node_pending.length))
        else
          some (s, [])

/-- Modelled from the spec: the base class method
`_check_nodes_have_same_collection` (not under src/): true iff every node
reported the same collection as the first one. -/
def sameCollection (s : SchedState) : Bool :=
  match s.node2collection.map Prod.snd with
  | [] => true
  | c :: rest => rest.all (fun c2 => c2 = c)

/-- The rescheduling loop of `schedule()`: `check_schedule` with the default
duration 0 on every known node, in order, propagating a KeyError. -/
def check_schedule_all (s : SchedState) : List Nat → Option (SchedState × List Event)
  | [] => some (s, [])
  | n :: rest =>
      match check_schedule s n 0 with
      | none => none
      | some (s1, ev1) =>
          match check_schedule_all s1 rest with
          | none => none
          | some (s2, ev2) => some (s2, ev1 ++ ev2)

/-- The round-robin loop of `schedule()`: `k` iterations of
`self._send_tests(next(nodes), 1)` where `nodes = cycle(self.nodes)` has
already been advanced `i` times, so iteration `t` dispatches to the node at
position `(i + t) % len(ns)`. -/
def distributeRR (s : SchedState) (ns : List Nat) (i : Nat) : Nat → SchedState × List Event
  | 0 => (s, [])
  | Nat.succ k =>
      let r1 := sendTests s (ns.getD (i % ns.length) 0) 1
      let r2 := distributeRR r1.1 ns (i + 1) k
      (r2.1, r1.2 ++ r2.2)

/-- The shutdown loop of `schedule()`: `node.shutdown()` on every node. -/
def shutdownAll (s : SchedState) : List Nat → SchedState × List Event
  | [] => (s, [])
  | n :: rest =>
      let r1 := nodeShutdown s n
      let r2 := shutdownAll r1.1 rest
      (r2.1, r1.2 ++ r2.2)

/-- `OptimizedLoadScheduling.schedule()`, translated clause by clause from
src/xdist/scheduler/load_optimized.py.  `none` models an unhandled Python
exception: the failed `assert self.collection_is_completed`, a KeyError
from the rescheduling loop, or the IndexError of
`list(self.node2collection.values())[0]` with no registered node. -/
def schedule (s : SchedState) : Option (SchedState × List Event) :=
  if s.collection_is_completed = false then none
  else
    match s.collection with
    | some _ => check_schedule_all s s.nodes
    | none =>
        if sameCollection s = false then
          some (s, [Event.log "**Different tests collected, aborting run**"])
        else
          match s.node2collection.map Prod.snd with
          | [] => none
          | c :: _ =>
              let s1 : SchedState :=
                { s with collection := some c, pending := List.range c.length }
              if c.isEmpty then some (s1, [])
              else
                let initial_batch := s.maxQueueSize * s1.nodes.length
                let r := distributeRR s1 s1.nodes 0 initial_batch
                if r.1.pending = [] then
                  let r2 := shutdownAll r.1 r.1.nodes
                  (some (r2.1, r.2 ++ r2.2))
                else
                  some r

/-- The scheduler state as built by `__init__` (base class fields modelled
from the spec), before any node registration or collection report. -/
def initState : SchedState :=
  { collection := none, pending := [], node2pending := [], node2collection := [],
    shuttingDown := [], completed := [], collection_is_completed := false,
    minQueueSize := 2, maxQueueSize := 2 }

/-- Convenience constructor for states of a running scheduler with the
configuration fixed by `__init__` (both queue bounds equal to 2). -/
def mkState (coll : Option (List Nat)) (pend : List Nat)
    (n2p : List (Nat × List Nat)) (n2c : List (Nat × List Nat))
    (down : List Nat) (compl : List Nat) : SchedState :=
  { collection := coll, pending := pend, node2pending := n2p,
    node2collection := n2c, shuttingDown := down, completed := compl,
    collection_is_completed := true, minQueueSize := 2, maxQueueSize := 2 }

/-- All item indices currently sitting in some node queue. -/
def queuesFlat (s : SchedState) : List Nat :=
  (s.node2pending.map Prod.snd).flatten

/-- Every index the scheduler accounts for: pending, assigned, completed. -/
def allAssigned (s : SchedState) : List Nat :=
  s.pending ++ queuesFlat s ++ s.completed

/-- The conservation invariant: the pending indices, the assigned indices
and the completed indices together are exactly the index range of the
authoritative collection, each index occurring exactly once; before the
collection is adopted all three parts are empty. -/
def SchedInv (s : SchedState) : Prop :=
  List.Perm (allAssigned s) (List.range (s.collection.getD []).length)

instance (s : SchedState) : Decidable (SchedInv s) :=
  inferInstanceAs
    (Decidable (List.Perm (allAssigned s) (List.range (s.collection.getD []).length)))

/-- The queue bound invariant: no node queue longer than `maxQueueSize`. -/
def QueueInv (s : SchedState) : Prop :=
  ∀ p ∈ s.node2pending, (Prod.snd p).length ≤ s.maxQueueSize

instance (s : SchedState) : Decidable (QueueInv s) :=
  inferInstanceAs (Decidable (∀ p ∈ s.node2pending, (Prod.snd p).length ≤ s.maxQueueSize))

/-- The counting form of the conservation claim. -/
def countsOK (s : SchedState) (n : Nat) : Prop :=
  s.pending.length + ((s.node2pending.map Prod.snd).map List.length).sum
      + s.completed.length = n

instance (s : SchedState) (n : Nat) : Decidable (countsOK s n) :=
  inferInstanceAs (Decidable (_ = n))

/-- No index is pending and assigned, or assigned to two queues, at once. -/
def noDoubleAssign (s : SchedState) : Prop :=
  (s.pending ++ queuesFlat s).Nodup

instance (s : SchedState) : Decidable (noDoubleAssign s) :=
  inferInstanceAs (Decidable ((s.pending ++ queuesFlat s).Nodup))

/-- The queue length of a node as the scheduler sees it. -/
def qlen (s : SchedState) (x : Nat) : Nat :=
  ((lookupAssoc s.node2pending x).getD []).length

theorem lookupAssoc_isSome_iff (m : List (Nat × List Nat)) (k : Nat) :
    (lookupAssoc m k).isSome = true ↔ k ∈ m.map Prod.fst := by
  induction m with
  | nil => simp [lookupAssoc]
  | cons p rest ih =>
      obtain ⟨a, v⟩ := p
      by_cases h : a = k
      · subst h; simp [lookupAssoc]
      · simp [lookupAssoc, h, ih, Ne.symm h]

theorem updateAssoc_map_fst (m : List (Nat × List Nat)) (k : Nat)
    (f : List Nat → List Nat) :
    (updateAssoc m k f).map Prod.fst = m.map Prod.fst := by
  induction m with
  | nil => rfl
  | cons p rest ih =>
      obtain ⟨a, v⟩ := p
      by_cases h : a = k
      · simp [updateAssoc, h]
      · simp [updateAssoc, h, ih]

theorem lookupAssoc_updateAssoc_self (m : List (Nat × List Nat)) (k : Nat)
    (f : List Nat → List Nat) :
    lookupAssoc (updateAssoc m k f) k = (lookupAssoc m k).map f := by
  induction m with
  | nil => rfl
  | cons p rest ih =>
      obtain ⟨a, v⟩ := p
      by_cases h : a = k
      · simp [updateAssoc, lookupAssoc, h]
      · simp [updateAssoc, lookupAssoc, h, ih]

theorem lookupAssoc_updateAssoc_ne (m : List (Nat × List Nat)) {x k : Nat}
    (h : x ≠ k) (f : List Nat → List Nat) :
    lookupAssoc (updateAssoc m k f) x = lookupAssoc m x := by
  induction m with
  | nil => rfl
  | cons p rest ih =>
      obtain ⟨a, v⟩ := p
      by_cases ha : a = k
      · subst ha
        have hax : ¬a = x := fun hh => h hh.symm
        simp [updateAssoc, lookupAssoc, hax]
      · by_cases hx : a = x
        · subst hx
          simp [updateAssoc, if_neg ha, lookupAssoc]
        · simp [updateAssoc, lookupAssoc, ha, hx, ih]

theorem mem_updateAssoc {m : List (Nat × List Nat)} {k : Nat}
    {f : List Nat → List Nat} {p : Nat × List Nat}
    (hp : p ∈ updateAssoc m k f) :
    p ∈ m ∨ ∃ v, lookupAssoc m k = some v ∧ p = (k, f v) := by
  induction m with
  | nil => simp [updateAssoc] at hp
  | cons q rest ih =>
      obtain ⟨a, v⟩ := q
      by_cases h : a = k
      · subst h
        simp only [updateAssoc, if_pos rfl] at hp
        rcases List.mem_cons.mp hp with h1 | h1
        · exact Or.inr ⟨v, by simp [lookupAssoc], h1⟩
        · exact Or.inl (List.mem_cons_of_mem _ h1)
      · simp only [updateAssoc, if_neg h] at hp
        rcases List.mem_cons.mp hp with h1 | h1
        · exact Or.inl (h1 ▸ List.mem_cons_self _ _)
        · rcases ih h1 with h2 | ⟨w, hw1, hw2⟩
          · exact Or.inl (List.mem_cons_of_mem _ h2)
          · exact Or.inr ⟨w, by simp [lookupAssoc, h, hw1], hw2⟩

theorem flatten_updateAssoc_perm (m : List (Nat × List Nat)) {k : Nat}
    {v : List Nat} (h : lookupAssoc m k = some v) (items : List Nat) :
    List.Perm ((updateAssoc m k (fun q => q ++ items)).map Prod.snd).flatten
      ((m.map Prod.snd).flatten ++ items) := by
  induction m with
  | nil => simp [lookupAssoc] at h
  | cons q rest ih =>
      obtain ⟨a, w⟩ := q
      by_cases ha : a = k
      · simp only [updateAssoc, if_pos ha, List.map_cons, List.flatten_cons]
        rw [List.append_assoc, List.append_assoc]
        exact List.Perm.append_left w List.perm_append_comm
      · simp only [lookupAssoc, if_neg ha] at h
        simp only [updateAssoc, if_neg ha, List.map_cons, List.flatten_cons]
        rw [List.append_assoc]
        exact List.Perm.append_left w (ih h)

theorem lookupAssoc_of_mem_nodup {m : List (Nat × List Nat)}
    (hnd : (m.map Prod.fst).Nodup) {p : Nat × List Nat} (hp : p ∈ m) :
    lookupAssoc m p.1 = some p.2 := by
  induction m with
  | nil => simp at hp
  | cons q rest ih =>
      obtain ⟨a, v⟩ := q
      simp only [List.map_cons, List.nodup_cons] at hnd
      rcases List.mem_cons.mp hp with h1 | h1
      · subst h1; simp [lookupAssoc]
      · have hne : a ≠ p.1 := by
          intro hh
          exact hnd.1 (hh ▸ (List.mem_map.mpr ⟨p, h1, rfl⟩))
        simp [lookupAssoc, hne, ih hnd.2 h1]

theorem sendTests_fields (s : SchedState) (n num : Nat) :
    ((sendTests s n num).1).collection = s.collection ∧
    ((sendTests s n num).1).completed = s.completed ∧
    ((sendTests s n num).1).shuttingDown = s.shuttingDown ∧
    ((sendTests s n num).1).node2collection = s.node2collection ∧
    ((sendTests s n num).1).collection_is_completed = s.collection_is_completed ∧
    ((sendTests s n num).1).minQueueSize = s.minQueueSize ∧
    ((sendTests s n num).1).maxQueueSize = s.maxQueueSize ∧
    ((sendTests s n num).1).node2pending.map Prod.fst
      = s.node2pending.map Prod.fst := by
  unfold sendTests
  split
  · exact ⟨rfl, rfl, rfl, rfl, rfl, rfl, rfl, rfl⟩
  · exact ⟨rfl, rfl, rfl, rfl, rfl, rfl, rfl, updateAssoc_map_fst _ _ _⟩

theorem sendTests_perm (s : SchedState) (n num : Nat)
    (h : (lookupAssoc s.node2pending n).isSome = true) :
    List.Perm (allAssigned (sendTests s n num).1) (allAssigned s) := by
  obtain ⟨v, hv⟩ := Option.isSome_iff_exists.mp h
  have hflat := flatten_updateAssoc_perm s.node2pending hv (s.pending.take num)
  unfold sendTests
  split
  · exact List.Perm.refl _
  · simp only [allAssigned, queuesFlat]
    rw [← Multiset.coe_eq_coe]
    simp only [← Multiset.coe_add]
    have h1 :
        ((((updateAssoc s.node2pending n
            fun q => q ++ s.pending.take num).map Prod.snd).flatten :
          Multiset Nat))
          = (((s.node2pending.map Prod.snd).flatten : Multiset Nat))
            + ((s.pending.take num : List Nat) : Multiset Nat) := by
      rw [Multiset.coe_add, Multiset.coe_eq_coe]
      exact hflat
    have h2 : ((s.pending.take num : List Nat) : Multiset Nat)
        + ((s.pending.drop num : List Nat) : Multiset Nat)
          = ((s.pending : List Nat) : Multiset Nat) := by
      rw [Multiset.coe_add, List.take_append_drop]
    rw [h1, ← h2]
    abel

theorem nodeShutdown_fields (s : SchedState) (n : Nat) :
    ((nodeShutdown s n).1).collection = s.collection ∧
    ((nodeShutdown s n).1).pending = s.pending ∧
    ((nodeShutdown s n).1).node2pending = s.node2pending ∧
    ((nodeShutdown s n).1).completed = s.completed ∧
    ((nodeShutdown s n).1).minQueueSize = s.minQueueSize ∧
    ((nodeShutdown s n).1).maxQueueSize = s.maxQueueSize ∧
    allAssigned (nodeShutdown s n).1 = allAssigned s :=
  ⟨rfl, rfl, rfl, rfl, rfl, rfl, rfl⟩

theorem check_schedule_drain {s : SchedState} {n : Nat} (d : ℚ)
    (hsd : n ∈ s.shuttingDown) :
    check_schedule s n d = some (s, []) := by
  unfold check_schedule
  rw [if_pos hsd]

theorem check_schedule_shutdown {s : SchedState} {n : Nat} (d : ℚ)
    (hsd : n ∉ s.shuttingDown) (hp : s.pending = []) :
    check_schedule s n d = some (nodeShutdown s n) := by
  unfold check_schedule
  rw [if_neg hsd, if_pos hp]

theorem check_schedule_unknown {s : SchedState} {n : Nat} (d : ℚ)
    (hsd : n ∉ s.shuttingDown) (hp : ¬s.pending = [])
    (hlk : lookupAssoc s.node2pending n = none) :
    check_schedule s n d = none := by
  unfold check_schedule
  rw [if_neg hsd, if_neg hp, hlk]

theorem check_schedule_full {s : SchedState} {n : Nat} (d : ℚ)
    (hsd : n ∉ s.shuttingDown) (hp : ¬s.pending = []) {v : List Nat}
    (hlk : lookupAssoc s.node2pending n = some v)
    (hge : ¬v.length < s.minQueueSize) :
    check_schedule s n d = some (s, []) := by
  unfold check_schedule
  rw [if_neg hsd, if_neg hp, hlk]
  simp only
  rw [if_neg hge]

theorem check_schedule_withhold {s : SchedState} {n : Nat} {d : ℚ}
    (hsd : n ∉ s.shuttingDown) (hp : ¬s.pending = []) {v : List Nat}
    (hlk : lookupAssoc s.node2pending n = some v)
    (hlt : v.length < s.minQueueSize)
    (hdur : (1/10 : ℚ) ≤ d ∧ s.maxQueueSize ≤ v.length) :
    check_schedule s n d = some (s, []) := by
  unfold check_schedule
  rw [if_neg hsd, if_neg hp, hlk]
  simp only
  rw [if_pos hlt, if_pos hdur]

theorem check_schedule_send {s : SchedState} {n : Nat} {d : ℚ}
    (hsd : n ∉ s.shuttingDown) (hp : ¬s.pending = []) {v : List Nat}
    (hlk : lookupAssoc s.node2pending n = some v)
    (hlt : v.length < s.minQueueSize)
    (hdur : ¬((1/10 : ℚ) ≤ d ∧ s.maxQueueSize ≤ v.length)) :
    check_schedule s n d = some (sendTests s n (s.maxQueueSize - v.length)) := by
  unfold check_schedule
  rw [if_neg hsd, if_neg hp, hlk]
  simp only
  rw [if_pos hlt, if_neg hdur]

/-- Case analysis of a successful `check_schedule` call: either the state is
returned untouched with no event, or the shutdown signal is sent, or a
replenishment dispatch happens on a known node with a short queue. -/
theorem check_schedule_cases {s : SchedState} {n : Nat} {d : ℚ}
    {s1 : SchedState} {ev : List Event}
    (h : check_schedule s n d = some (s1, ev)) :
    (s1 = s ∧ ev = []) ∨
    (s.pending = [] ∧ s1 = (nodeShutdown s n).1 ∧ ev = (nodeShutdown s n).2) ∨
    (∃ v, lookupAssoc s.node2pending n = some v ∧ v.length < s.minQueueSize ∧
      s1 = (sendTests s n (s.maxQueueSize - v.length)).1 ∧
      ev = (sendTests s n (s.maxQueueSize - v.length)).2) := by
  by_cases hsd : n ∈ s.shuttingDown
  · rw [check_schedule_drain d hsd] at h
    simp only [Option.some.injEq, Prod.mk.injEq] at h
    exact Or.inl ⟨h.1.symm, h.2.symm⟩
  · by_cases hp : s.pending = []
    · rw [check_schedule_shutdown d hsd hp] at h
      simp only [Option.some.injEq] at h
      refine Or.inr (Or.inl ⟨hp, ?_, ?_⟩)
      · rw [h]
      · rw [h]
    · cases hlk : lookupAssoc s.node2pending n with
      | none =>
          rw [check_schedule_unknown d hsd hp hlk] at h
          cases h
      | some v =>
          by_cases hlt : v.length < s.minQueueSize
          · by_cases hdur : (1/10 : ℚ) ≤ d ∧ s.maxQueueSize ≤ v.length
            · rw [check_schedule_withhold hsd hp hlk hlt hdur] at h
              simp only [Option.some.injEq, Prod.mk.injEq] at h
              exact Or.inl ⟨h.1.symm, h.2.symm⟩
            · rw [check_schedule_send hsd hp hlk hlt hdur] at h
              simp only [Option.some.injEq] at h
              refine Or.inr (Or.inr ⟨v, rfl, hlt, ?_, ?_⟩)
              · rw [h]
              · rw [h]
          · rw [check_schedule_full d hsd hp hlk hlt] at h
            simp only [Option.some.injEq, Prod.mk.injEq] at h
            exact Or.inl ⟨h.1.symm, h.2.symm⟩

theorem check_schedule_fields {s : SchedState} {n : Nat} {d : ℚ}
    {s1 : SchedState} {ev : List Event}
    (h : check_schedule s n d = some (s1, ev)) :
    s1.collection = s.collection ∧
    s1.completed = s.completed ∧
    s1.node2collection = s.node2collection ∧
    s1.collection_is_completed = s.collection_is_completed ∧
    s1.minQueueSize = s.minQueueSize ∧
    s1.maxQueueSize = s.maxQueueSize ∧
    s1.node2pending.map Prod.fst = s.node2pending.map Prod.fst := by
  rcases check_schedule_cases h with ⟨h1, _⟩ | ⟨_, h1, _⟩ | ⟨v, _, _, h1, _⟩ <;>
    subst h1
  · exact ⟨rfl, rfl, rfl, rfl, rfl, rfl, rfl⟩
  · exact ⟨rfl, rfl, rfl, rfl, rfl, rfl, rfl⟩
  · obtain ⟨f1, f2, _, f4, f5, f6, f7, f8⟩ :=
      sendTests_fields s n (s.maxQueueSize - v.length)
    exact ⟨f1, f2, f4, f5, f6, f7, f8⟩

theorem check_schedule_schedInv {s : SchedState} {n : Nat} {d : ℚ}
    {s1 : SchedState} {ev : List Event}
    (hinv : SchedInv s) (h : check_schedule s n d = some (s1, ev)) :
    SchedInv s1 := by
  rcases check_schedule_cases h with ⟨h1, _⟩ | ⟨_, h1, _⟩ | ⟨v, hv, _, h1, _⟩ <;>
    subst h1
  · exact hinv
  · exact hinv
  · unfold SchedInv
    rw [(sendTests_fields s n (s.maxQueueSize - v.length)).1]
    exact (sendTests_perm s n _ (by rw [hv]; rfl)).trans hinv

theorem check_schedule_queueInv {s : SchedState} {n : Nat} {d : ℚ}
    {s1 : SchedState} {ev : List Event}
    (hmm : s.minQueueSize ≤ s.maxQueueSize)
    (hq : QueueInv s) (h : check_schedule s n d = some (s1, ev)) :
    QueueInv s1 := by
  rcases check_schedule_cases h with ⟨h1, _⟩ | ⟨_, h1, _⟩ | ⟨v, hv, hlt, h1, _⟩ <;>
    subst h1
  · exact hq
  · exact hq
  · intro p hp
    rw [(sendTests_fields s n (s.maxQueueSize - v.length)).2.2.2.2.2.2.1]
    unfold sendTests at hp
    split at hp
    · exact hq p hp
    · simp only at hp
      rcases mem_updateAssoc hp with h2 | ⟨w, hw, h2⟩
      · exact hq p h2
      · rw [hv] at hw
        injection hw with hw
        subst hw
        subst h2
        simp only [List.length_append]
        have htk : (s.pending.take (s.maxQueueSize - v.length)).length
            ≤ s.maxQueueSize - v.length := by
          simp [List.length_take]
        omega

theorem check_schedule_all_schedInv (ns : List Nat) :
    ∀ (s : SchedState) {s1 : SchedState} {ev : List Event},
      SchedInv s → check_schedule_all s ns = some (s1, ev) → SchedInv s1 := by
  induction ns with
  | nil =>
      intro s s1 ev hinv h
      unfold check_schedule_all at h
      simp only [Option.some.injEq, Prod.mk.injEq] at h
      exact h.1 ▸ hinv
  | cons n rest ih =>
      intro s s1 ev hinv h
      unfold check_schedule_all at h
      split at h
      · cases h
      · rename_i sa eva hc
        split at h
        · cases h
        · rename_i sb evb hr
          simp only [Option.some.injEq, Prod.mk.injEq] at h
          exact h.1 ▸ ih sa (check_schedule_schedInv hinv hc) hr

theorem check_schedule_all_queueInv (ns : List Nat) :
    ∀ (s : SchedState) {s1 : SchedState} {ev : List Event},
      s.minQueueSize ≤ s.maxQueueSize →
      QueueInv s → check_schedule_all s ns = some (s1, ev) → QueueInv s1 := by
  induction ns with
  | nil =>
      intro s s1 ev hmm hq h
      unfold check_schedule_all at h
      simp only [Option.some.injEq, Prod.mk.injEq] at h
      exact h.1 ▸ hq
  | cons n rest ih =>
      intro s s1 ev hmm hq h
      unfold check_schedule_all at h
      split at h
      · cases h
      · rename_i sa eva hc
        split at h
        · cases h
        · rename_i sb evb hr
          simp only [Option.some.injEq, Prod.mk.injEq] at h
          have hf := check_schedule_fields hc
          refine h.1 ▸ ih sa ?_ (check_schedule_queueInv hmm hq hc) hr
          rw [hf.2.2.2.2.1, hf.2.2.2.2.2.1]
          exact hmm

theorem check_schedule_all_fields (ns : List Nat) :
    ∀ (s : SchedState) {s1 : SchedState} {ev : List Event},
      check_schedule_all s ns = some (s1, ev) →
      s1.collection = s.collection ∧
      s1.minQueueSize = s.minQueueSize ∧
      s1.maxQueueSize = s.maxQueueSize := by
  induction ns with
  | nil =>
      intro s s1 ev h
      unfold check_schedule_all at h
      simp only [Option.some.injEq, Prod.mk.injEq] at h
      exact h.1 ▸ ⟨rfl, rfl, rfl⟩
  | cons n rest ih =>
      intro s s1 ev h
      unfold check_schedule_all at h
      split at h
      · cases h
      · rename_i sa eva hc
        split at h
        · cases h
        · rename_i sb evb hr
          simp only [Option.some.injEq, Prod.mk.injEq] at h
          have hf := check_schedule_fields hc
          have hg := ih sa hr
          exact h.1 ▸ ⟨hg.1.trans hf.1, hg.2.1.trans hf.2.2.2.2.1,
            hg.2.2.trans hf.2.2.2.2.2.1⟩

theorem lookupAssoc_mem {m : List (Nat × List Nat)} {k : Nat} {v : List Nat}
    (h : lookupAssoc m k = some v) : (k, v) ∈ m := by
  induction m with
  | nil => cases h
  | cons p rest ih =>
      obtain ⟨a, w⟩ := p
      by_cases ha : a = k
      · subst ha
        simp [lookupAssoc] at h
        subst h
        exact List.mem_cons_self _ _
      · simp only [lookupAssoc, if_neg ha] at h
        exact List.mem_cons_of_mem _ (ih h)

theorem sendTests_qlen (s : SchedState) (n num x : Nat) :
    qlen (sendTests s n num).1 x ≤ qlen s x + (if x = n then num else 0) := by
  unfold sendTests
  split
  · simp only [qlen]
    split <;> omega
  · simp only [qlen]
    by_cases hx : x = n
    · subst hx
      rw [if_pos rfl, lookupAssoc_updateAssoc_self]
      cases hl : lookupAssoc s.node2pending x with
      | none => simp
      | some w =>
          simp only [Option.map_some', Option.getD_some, List.length_append]
          have htk : (s.pending.take num).length ≤ num := by
            simp [List.length_take]
          omega
    · rw [if_neg hx, lookupAssoc_updateAssoc_ne _ hx]
      omega

theorem distributeRR_fields (ns : List Nat) :
    ∀ (k i : Nat) (s : SchedState),
      (distributeRR s ns i k).1.collection = s.collection ∧
      (distributeRR s ns i k).1.completed = s.completed ∧
      (distributeRR s ns i k).1.node2collection = s.node2collection ∧
      (distributeRR s ns i k).1.collection_is_completed
        = s.collection_is_completed ∧
      (distributeRR s ns i k).1.minQueueSize = s.minQueueSize ∧
      (distributeRR s ns i k).1.maxQueueSize = s.maxQueueSize ∧
      (distributeRR s ns i k).1.node2pending.map Prod.fst
        = s.node2pending.map Prod.fst := by
  intro k
  induction k with
  | zero => intro i s; exact ⟨rfl, rfl, rfl, rfl, rfl, rfl, rfl⟩
  | succ k ih =>
      intro i s
      unfold distributeRR
      simp only
      obtain ⟨a1, a2, _, a4, a5, a6, a7, a8⟩ :=
        sendTests_fields s (ns.getD (i % ns.length) 0) 1
      obtain ⟨b1, b2, b3, b4, b5, b6, b7⟩ :=
        ih (i + 1) (sendTests s (ns.getD (i % ns.length) 0) 1).1
      exact ⟨b1.trans a1, b2.trans a2, b3.trans a4, b4.trans a5,
        b5.trans a6, b6.trans a7, b7.trans a8⟩

theorem distributeRR_qlen (ns : List Nat) (x : Nat) :
    ∀ (k i : Nat) (s : SchedState),
      qlen (distributeRR s ns i k).1 x
        ≤ qlen s x
          + (List.range k).countP
              (fun t => ns.getD ((i + t) % ns.length) 0 == x) := by
  intro k
  induction k with
  | zero => intro i s; simp [distributeRR]
  | succ k ih =>
      intro i s
      unfold distributeRR
      simp only
      have h1 := ih (i + 1) (sendTests s (ns.getD (i % ns.length) 0) 1).1
      have h2 := sendTests_qlen s (ns.getD (i % ns.length) 0) 1 x
      have h3 : (List.range (k + 1)).countP
            (fun t => ns.getD ((i + t) % ns.length) 0 == x)
          = (if x = ns.getD (i % ns.length) 0 then 1 else 0)
            + (List.range k).countP
                (fun t => ns.getD ((i + 1 + t) % ns.length) 0 == x) := by
        rw [List.range_succ_eq_map, List.countP_cons, List.countP_map]
        have hcomp : ((fun t => ns.getD ((i + t) % ns.length) 0 == x) ∘ Nat.succ)
            = (fun t => ns.getD ((i + 1 + t) % ns.length) 0 == x) := by
          funext t
          simp only [Function.comp_apply]
          have hadd : i + Nat.succ t = i + 1 + t := by omega
          rw [hadd]
        rw [hcomp]
        have hite : (if (fun t => ns.getD ((i + t) % ns.length) 0 == x) 0 = true
              then 1 else 0)
            = (if x = ns.getD (i % ns.length) 0 then 1 else 0) := by
          simp only [Nat.add_zero, beq_iff_eq]
          by_cases hx : x = ns.getD (i % ns.length) 0
          · rw [if_pos hx, if_pos hx.symm]
          · rw [if_neg hx, if_neg (fun hh => hx hh.symm)]
        rw [hite]
        omega
      rw [h3]
      by_cases hx : x = ns.getD (i % ns.length) 0
      · rw [if_pos hx] at h2 ⊢
        omega
      · rw [if_neg hx] at h2 ⊢
        omega

theorem countP_round (ns : List Nat) (hnd : ns.Nodup) {j : Nat}
    (hj : j < ns.length) (m : Nat) :
    (List.range (m * ns.length)).countP
        (fun t => ns.getD (t % ns.length) 0 == ns[j]) = m := by
  induction m with
  | zero => simp
  | succ m ih =>
      rw [Nat.succ_mul, List.range_add, List.countP_append, ih, List.countP_map]
      have hcong : (List.range ns.length).countP
            ((fun t => ns.getD (t % ns.length) 0 == ns[j])
              ∘ (fun x => m * ns.length + x))
          = (List.range ns.length).countP (fun r => r == j) := by
        apply List.countP_congr
        intro r hr
        have hrlt : r < ns.length := List.mem_range.mp hr
        simp only [Function.comp_apply]
        rw [Nat.mul_comm m ns.length, Nat.mul_add_mod, Nat.mod_eq_of_lt hrlt,
          List.getD_eq_getElem ns 0 hrlt]
        by_cases hrj : r = j
        · subst hrj; simp
        · have hne : ns[r] ≠ ns[j] := fun hh => hrj ((hnd.getElem_inj_iff).mp hh)
          simp [hne, hrj]
      rw [hcong, ← List.count_eq_countP,
        List.count_eq_one_of_mem (List.nodup_range _) (List.mem_range.mpr hj)]

theorem distributeRR_schedInv (ns : List Nat) (hne : ns ≠ []) :
    ∀ (k i : Nat) (s : SchedState),
      (∀ x ∈ ns, x ∈ s.node2pending.map Prod.fst) →
      SchedInv s → SchedInv (distributeRR s ns i k).1 := by
  intro k
  induction k with
  | zero => intro i s _ hinv; exact hinv
  | succ k ih =>
      intro i s hmem hinv
      unfold distributeRR
      simp only
      have hlen : 0 < ns.length := List.length_pos.mpr hne
      have hmod : i % ns.length < ns.length := Nat.mod_lt _ hlen
      have htgt : ns.getD (i % ns.length) 0 ∈ ns := by
        rw [List.getD_eq_getElem ns 0 hmod]
        exact List.getElem_mem hmod
      have hsome :
          (lookupAssoc s.node2pending (ns.getD (i % ns.length) 0)).isSome
            = true :=
        (lookupAssoc_isSome_iff _ _).mpr (hmem _ htgt)
      refine ih (i + 1) _ ?_ ?_
      · intro x hx
        rw [(sendTests_fields s (ns.getD (i % ns.length) 0) 1).2.2.2.2.2.2.2]
        exact hmem x hx
      · unfold SchedInv
        rw [(sendTests_fields s (ns.getD (i % ns.length) 0) 1).1]
        exact (sendTests_perm s _ 1 hsome).trans hinv

theorem shutdownAll_fields (ns : List Nat) :
    ∀ s : SchedState,
      (shutdownAll s ns).1.collection = s.collection ∧
      (shutdownAll s ns).1.pending = s.pending ∧
      (shutdownAll s ns).1.node2pending = s.node2pending ∧
      (shutdownAll s ns).1.completed = s.completed ∧
      (shutdownAll s ns).1.minQueueSize = s.minQueueSize ∧
      (shutdownAll s ns).1.maxQueueSize = s.maxQueueSize := by
  induction ns with
  | nil => intro s; exact ⟨rfl, rfl, rfl, rfl, rfl, rfl⟩
  | cons n rest ih =>
      intro s
      unfold shutdownAll
      simp only
      exact ih (nodeShutdown s n).1

theorem qlen_eq_zero_of_empty {s : SchedState}
    (hempty : ∀ p ∈ s.node2pending, Prod.snd p = []) (x : Nat) :
    qlen s x = 0 := by
  unfold qlen
  cases hl : lookupAssoc s.node2pending x with
  | none => rfl
  | some w =>
      have hw := hempty (x, w) (lookupAssoc_mem hl)
      simp only at hw
      simp [hw]

theorem distributeRR_queue_bound (ns : List Nat) (hnd : ns.Nodup)
    (s : SchedState) (hkeys : s.node2pending.map Prod.fst = ns)
    (hempty : ∀ p ∈ s.node2pending, Prod.snd p = []) (m : Nat) :
    ∀ p ∈ (distributeRR s ns 0 (m * ns.length)).1.node2pending,
      (Prod.snd p).length ≤ m := by
  intro p hp
  have hkeys2 : (distributeRR s ns 0 (m * ns.length)).1.node2pending.map
      Prod.fst = ns :=
    ((distributeRR_fields ns (m * ns.length) 0 s).2.2.2.2.2.2).trans hkeys
  have hnd2 : ((distributeRR s ns 0 (m * ns.length)).1.node2pending.map
      Prod.fst).Nodup := by
    rw [hkeys2]; exact hnd
  have hlk := lookupAssoc_of_mem_nodup hnd2 hp
  have hq : (Prod.snd p).length = qlen (distributeRR s ns 0 (m * ns.length)).1 p.1 := by
    unfold qlen
    rw [hlk]
    rfl
  have hb := distributeRR_qlen ns p.1 (m * ns.length) 0 s
  rw [qlen_eq_zero_of_empty hempty p.1] at hb
  have hpmem : p.1 ∈ ns := by
    rw [← hkeys2]
    exact List.mem_map.mpr ⟨p, hp, rfl⟩
  obtain ⟨j, hj, hje⟩ := List.mem_iff_getElem.mp hpmem
  have hpred : (fun t => ns.getD ((0 + t) % ns.length) 0 == p.1)
      = (fun t => ns.getD (t % ns.length) 0 == ns[j]) := by
    funext t
    rw [Nat.zero_add, hje]
  rw [hpred, countP_round ns hnd hj m] at hb
  omega

theorem schedInv_none {s : SchedState} (hinv : SchedInv s)
    (hc : s.collection = none) :
    s.pending = [] ∧ queuesFlat s = [] ∧ s.completed = [] ∧
      (∀ p ∈ s.node2pending, Prod.snd p = []) := by
  unfold SchedInv at hinv
  rw [hc] at hinv
  simp only [Option.getD_none, List.length_nil, List.range_zero] at hinv
  have h0 : allAssigned s = [] := List.Perm.eq_nil hinv
  unfold allAssigned at h0
  simp only [List.append_eq_nil] at h0
  refine ⟨h0.1.1, h0.1.2, h0.2, ?_⟩
  intro p hp
  exact List.flatten_eq_nil_iff.mp h0.1.2 (Prod.snd p)
    (List.mem_map.mpr ⟨p, hp, rfl⟩)

theorem shutdownAll_schedInv (ns : List Nat) (s : SchedState)
    (hinv : SchedInv s) : SchedInv (shutdownAll s ns).1 := by
  obtain ⟨f1, f2, f3, f4, _, _⟩ := shutdownAll_fields ns s
  unfold SchedInv allAssigned queuesFlat at hinv ⊢
  rw [f1, f2, f3, f4]
  exact hinv

theorem schedule_not_completed {s : SchedState}
    (hcic : s.collection_is_completed = false) : schedule s = none := by
  unfold schedule
  rw [if_pos hcic]

theorem schedule_resched {s : SchedState}
    (hcic : s.collection_is_completed = true) {c : List Nat}
    (hc : s.collection = some c) :
    schedule s = check_schedule_all s s.nodes := by
  unfold schedule
  rw [hcic, hc]
  simp

theorem schedule_abort {s : SchedState}
    (hcic : s.collection_is_completed = true) (hc : s.collection = none)
    (hsame : sameCollection s = false) :
    schedule s = some (s, [Event.log "**Different tests collected, aborting run**"]) := by
  unfold schedule
  rw [hcic, hc]
  simp [hsame]


/-- The state right after `schedule()` adopts the authoritative collection
`c` and fills Pending with the full index range. -/
def initialized (s : SchedState) (c : List Nat) : SchedState :=
  { s with collection := some c, pending := List.range c.length }

/-- The initial round-robin distribution performed by `schedule()`:
`initial_batch = maxQueueSize * nodeCount` single-item dispatches over the
nodes in cyclic order. -/
def initialRun (s : SchedState) (c : List Nat) : SchedState × List Event :=
  distributeRR (initialized s c) (s.node2pending.map Prod.fst) 0
    (s.maxQueueSize * (s.node2pending.map Prod.fst).length)

theorem schedule_initial {s : SchedState}
    (hcic : s.collection_is_completed = true) (hc : s.collection = none)
    (hsame : sameCollection s = true) {c : List Nat} {crest : List (List Nat)}
    (hcol : s.node2collection.map Prod.snd = c :: crest) :
    schedule s =
      (if c.isEmpty then some (initialized s c, [])
       else if (initialRun s c).1.pending = [] then
         some ((shutdownAll (initialRun s c).1
             ((initialRun s c).1.node2pending.map Prod.fst)).1,
           (initialRun s c).2
             ++ (shutdownAll (initialRun s c).1
               ((initialRun s c).1.node2pending.map Prod.fst)).2)
       else some (initialRun s c)) := by
  unfold schedule initialRun initialized
  rw [hcic, hc]
  simp only [Bool.true_eq_false, if_false]
  rw [hsame]
  simp only [Bool.true_eq_false, if_false, hcol]
  rfl

theorem schedule_no_reported {s : SchedState}
    (hcic : s.collection_is_completed = true) (hc : s.collection = none)
    (hsame : sameCollection s = true)
    (hcol : s.node2collection.map Prod.snd = []) :
    schedule s = none := by
  unfold schedule
  rw [hcic, hc]
  simp only [Bool.true_eq_false, if_false]
  rw [hsame]
  simp only [Bool.true_eq_false, if_false, hcol]

theorem schedInv_init {s : SchedState} (hinv : SchedInv s)
    (hc : s.collection = none) (c : List Nat) :
    SchedInv (initialized s c) := by
  have hfacts := schedInv_none hinv hc
  have hfl : (s.node2pending.map Prod.snd).flatten = [] := hfacts.2.1
  unfold SchedInv allAssigned queuesFlat initialized
  simp only
  rw [hfl, hfacts.2.2.1]
  simp only [List.append_nil, Option.getD_some]
  exact List.Perm.refl _

theorem initialRun_schedInv {s : SchedState} (hinv : SchedInv s)
    (hc : s.collection = none) (c : List Nat) :
    SchedInv (initialRun s c).1 := by
  unfold initialRun
  by_cases hns : s.node2pending.map Prod.fst = []
  · rw [hns]
    simp only [List.length_nil, Nat.mul_zero]
    exact schedInv_init hinv hc c
  · exact distributeRR_schedInv _ hns _ 0 _ (fun x hx => hx)
      (schedInv_init hinv hc c)

theorem initialRun_queue_bound {s : SchedState} (hinv : SchedInv s)
    (hc : s.collection = none)
    (hnd : (s.node2pending.map Prod.fst).Nodup) (c : List Nat) :
    ∀ p ∈ (initialRun s c).1.node2pending,
      (Prod.snd p).length ≤ s.maxQueueSize := by
  have hfacts := schedInv_none hinv hc
  unfold initialRun
  by_cases hns : s.node2pending.map Prod.fst = []
  · rw [hns]
    simp only [List.length_nil, Nat.mul_zero]
    intro p hp
    have hp2 : Prod.snd p = [] := hfacts.2.2.2 p hp
    rw [hp2]
    simp
  · exact distributeRR_queue_bound _ hnd (initialized s c) rfl
      (fun p hp => hfacts.2.2.2 p hp) s.maxQueueSize

theorem schedule_schedInv {s s1 : SchedState} {ev : List Event}
    (hinv : SchedInv s) (h : schedule s = some (s1, ev)) : SchedInv s1 := by
  cases hcic : s.collection_is_completed with
  | false => rw [schedule_not_completed hcic] at h; cases h
  | true =>
      cases hc : s.collection with
      | some c =>
          rw [schedule_resched hcic hc] at h
          exact check_schedule_all_schedInv _ s hinv h
      | none =>
          cases hsame : sameCollection s with
          | false =>
              rw [schedule_abort hcic hc hsame] at h
              simp only [Option.some.injEq, Prod.mk.injEq] at h
              exact h.1 ▸ hinv
          | true =>
              cases hcol : s.node2collection.map Prod.snd with
              | nil =>
                  rw [schedule_no_reported hcic hc hsame hcol] at h
                  cases h
              | cons c crest =>
                  rw [schedule_initial hcic hc hsame hcol] at h
                  split at h
                  · simp only [Option.some.injEq, Prod.mk.injEq] at h
                    exact h.1 ▸ schedInv_init hinv hc c
                  · have hinvR := initialRun_schedInv hinv hc c
                    split at h
                    · simp only [Option.some.injEq, Prod.mk.injEq] at h
                      exact h.1 ▸ shutdownAll_schedInv _ _ hinvR
                    · simp only [Option.some.injEq] at h
                      rw [h] at hinvR
                      exact hinvR

theorem schedule_queueInv {s s1 : SchedState} {ev : List Event}
    (hnd : (s.node2pending.map Prod.fst).Nodup)
    (hmm : s.minQueueSize ≤ s.maxQueueSize)
    (hinv : SchedInv s) (hq : QueueInv s)
    (h : schedule s = some (s1, ev)) : QueueInv s1 := by
  cases hcic : s.collection_is_completed with
  | false => rw [schedule_not_completed hcic] at h; cases h
  | true =>
      cases hc : s.collection with
      | some c =>
          rw [schedule_resched hcic hc] at h
          exact check_schedule_all_queueInv _ s hmm hq h
      | none =>
          cases hsame : sameCollection s with
          | false =>
              rw [schedule_abort hcic hc hsame] at h
              simp only [Option.some.injEq, Prod.mk.injEq] at h
              exact h.1 ▸ hq
          | true =>
              cases hcol : s.node2collection.map Prod.snd with
              | nil =>
                  rw [schedule_no_reported hcic hc hsame hcol] at h
                  cases h
              | cons c crest =>
                  rw [schedule_initial hcic hc hsame hcol] at h
                  split at h
                  · simp only [Option.some.injEq, Prod.mk.injEq] at h
                    exact h.1 ▸ hq
                  · have hbound := initialRun_queue_bound hinv hc hnd c
                    have hmax : (initialRun s c).1.maxQueueSize
                        = s.maxQueueSize :=
                      (distributeRR_fields _ _ _ _).2.2.2.2.2.1
                    split at h
                    · simp only [Option.some.injEq, Prod.mk.injEq] at h
                      intro p hp
                      rw [← h.1] at hp ⊢
                      obtain ⟨_, _, f3, _, _, f6⟩ := shutdownAll_fields
                        ((initialRun s c).1.node2pending.map Prod.fst)
                        (initialRun s c).1
                      rw [f3] at hp
                      rw [f6, hmax]
                      exact hbound p hp
                    · simp only [Option.some.injEq] at h
                      rw [h] at hbound hmax
                      intro p hp
                      rw [hmax]
                      exact hbound p hp

theorem schedInv_counts {s : SchedState} {c : List Nat}
    (hinv : SchedInv s) (hc : s.collection = some c) :
    countsOK s c.length ∧ noDoubleAssign s := by
  unfold SchedInv at hinv
  rw [hc] at hinv
  simp only [Option.getD_some] at hinv
  constructor
  · have hlen := hinv.length_eq
    unfold allAssigned queuesFlat at hlen
    simp only [List.length_append, List.length_flatten, List.length_range] at hlen
    unfold countsOK
    omega
  · have hnd : (allAssigned s).Nodup :=
      hinv.nodup_iff.mpr (List.nodup_range _)
    unfold allAssigned at hnd
    exact List.Nodup.of_append_left hnd

theorem schedule_fields {s s1 : SchedState} {ev : List Event}
    (h : schedule s = some (s1, ev)) :
    s1.minQueueSize = s.minQueueSize ∧ s1.maxQueueSize = s.maxQueueSize := by
  cases hcic : s.collection_is_completed with
  | false => rw [schedule_not_completed hcic] at h; cases h
  | true =>
      cases hc : s.collection with
      | some c =>
          rw [schedule_resched hcic hc] at h
          have hf := check_schedule_all_fields _ s h
          exact ⟨hf.2.1, hf.2.2⟩
      | none =>
          cases hsame : sameCollection s with
          | false =>
              rw [schedule_abort hcic hc hsame] at h
              simp only [Option.some.injEq, Prod.mk.injEq] at h
              exact h.1 ▸ ⟨rfl, rfl⟩
          | true =>
              cases hcol : s.node2collection.map Prod.snd with
              | nil =>
                  rw [schedule_no_reported hcic hc hsame hcol] at h
                  cases h
              | cons c crest =>
                  rw [schedule_initial hcic hc hsame hcol] at h
                  split at h
                  · simp only [Option.some.injEq, Prod.mk.injEq] at h
                    exact h.1 ▸ ⟨rfl, rfl⟩
                  · have hdrr := distributeRR_fields
                      (s.node2pending.map Prod.fst)
                      (s.maxQueueSize * (s.node2pending.map Prod.fst).length) 0
                      (initialized s c)
                    split at h
                    · simp only [Option.some.injEq, Prod.mk.injEq] at h
                      obtain ⟨_, _, _, _, f5, f6⟩ := shutdownAll_fields
                        ((initialRun s c).1.node2pending.map Prod.fst)
                        (initialRun s c).1
                      rw [← h.1]
                      constructor
                      · rw [f5]; exact hdrr.2.2.2.2.1
                      · rw [f6]; exact hdrr.2.2.2.2.2.1
                    · simp only [Option.some.injEq] at h
                      have hs1 : s1 = (initialRun s c).1 := by rw [h]
                      rw [hs1]
                      exact ⟨hdrr.2.2.2.2.1, hdrr.2.2.2.2.2.1⟩

/-- C1: after any successful invocation of `schedule()` or
`check_schedule(node, duration)` from a state satisfying the conservation
invariant, the invariant still holds: with an adopted collection of size N,
every index in the range belongs to exactly one of Pending, one node queue,
or the completed set, so the number of pending indices plus the sum of all
node queue lengths plus the completed count equals N, and no index appears
in more than one of Pending and the node queues. -/
theorem claim_C1 :
    (∀ (s : SchedState) (n : Nat) (d : ℚ) (s1 : SchedState) (ev : List Event),
      SchedInv s → check_schedule s n d = some (s1, ev) →
        SchedInv s1 ∧ ∀ c, s1.collection = some c →
          countsOK s1 c.length ∧ noDoubleAssign s1) ∧
    (∀ (s s1 : SchedState) (ev : List Event),
      SchedInv s → schedule s = some (s1, ev) →
        SchedInv s1 ∧ ∀ c, s1.collection = some c →
          countsOK s1 c.length ∧ noDoubleAssign s1) := by
  constructor
  · intro s n d s1 ev hinv h
    have h1 := check_schedule_schedInv hinv h
    exact ⟨h1, fun c hc => schedInv_counts h1 hc⟩
  · intro s s1 ev hinv h
    have h1 := schedule_schedInv hinv h
    exact ⟨h1, fun c hc => schedInv_counts h1 hc⟩

/-- A concrete mid-run state used to witness C1: collection of size 3, all
three indices completed, one idle node. -/
def exC1 : SchedState :=
  mkState (some [7, 8, 9]) [] [(0, [])] [(0, [7, 8, 9])] [] [0, 1, 2]

theorem claim_C1_witness :
    SchedInv { exC1 with shuttingDown := [0] } ∧
    countsOK { exC1 with shuttingDown := [0] } 3 ∧
    noDoubleAssign { exC1 with shuttingDown := [0] } := by
  have hstep : check_schedule exC1 0 0
      = some ({ exC1 with shuttingDown := [0] }, [Event.shutdown 0]) := by
    decide
  have h := claim_C1.1 exC1 0 0 { exC1 with shuttingDown := [0] }
    [Event.shutdown 0] (by decide) hstep
  exact ⟨h.1, (h.2 [7, 8, 9] rfl).1, (h.2 [7, 8, 9] rfl).2⟩

/-- C2: with the constructor configuration `minQueueSize = maxQueueSize = 2`,
no node queue ever exceeds two items after a successful `check_schedule`
(which tops a short queue up to at most `maxQueueSize - q` new items) or
after `schedule()` (whose initial round-robin batch of
`maxQueueSize * nodeCount` single-item sends gives each node at most
`maxQueueSize` items). -/
theorem claim_C2 :
    (∀ (s : SchedState) (n : Nat) (d : ℚ) (s1 : SchedState) (ev : List Event),
      s.minQueueSize = 2 → s.maxQueueSize = 2 → QueueInv s →
      check_schedule s n d = some (s1, ev) →
        ∀ p ∈ s1.node2pending, (Prod.snd p).length ≤ 2) ∧
    (∀ (s s1 : SchedState) (ev : List Event),
      s.minQueueSize = 2 → s.maxQueueSize = 2 →
      (s.node2pending.map Prod.fst).Nodup → SchedInv s → QueueInv s →
      schedule s = some (s1, ev) →
        ∀ p ∈ s1.node2pending, (Prod.snd p).length ≤ 2) := by
  constructor
  · intro s n d s1 ev hmin hmax hq h p hp
    have h1 := check_schedule_queueInv (by omega) hq h
    have h2 := h1 p hp
    rw [(check_schedule_fields h).2.2.2.2.2.1, hmax] at h2
    exact h2
  · intro s s1 ev hmin hmax hnd hinv hq h p hp
    have h1 := schedule_queueInv hnd (by omega) hinv hq h
    have h2 := h1 p hp
    rw [(schedule_fields h).2, hmax] at h2
    exact h2

/-- A concrete state used to witness C2: a node already holding a full
queue of two items while two indices are still pending. -/
def exC2 : SchedState :=
  mkState (some [4, 5, 6, 7]) [2, 3] [(0, [0, 1])] [] [] []

theorem claim_C2_witness :
    check_schedule exC2 0 0 = some (exC2, []) ∧
    ((0, [0, 1]) : Nat × List Nat).2.length ≤ 2 := by
  refine ⟨by decide, ?_⟩
  exact claim_C2.1 exC2 0 0 exC2 [] rfl rfl (by decide) (by decide)
    (0, [0, 1]) (by decide)

/-- The first-schedule state for C3: ten collected items, two fresh nodes. -/
def exC3 : SchedState :=
  mkState none [] [(0, []), (1, [])]
    [(0, List.range 10), (1, List.range 10)] [] []

/-- C3: with N = 10 items, K = 2 nodes and maxQueueSize = 2, the first
`schedule()` call after collection agreement distributes
`initial_batch = 4` single items round-robin starting at the first node:
node 0 ends with queue [0, 2], node 1 with [1, 3], Pending with
[4, 5, 6, 7, 8, 9], and no shutdown signal is sent to either node. -/
theorem claim_C3 :
    schedule exC3 =
      some ({ exC3 with
          collection := some (List.range 10),
          pending := [4, 5, 6, 7, 8, 9],
          node2pending := [(0, [0, 2]), (1, [1, 3])] },
        [Event.sendTests 0 [0], Event.sendTests 1 [1],
         Event.sendTests 0 [2], Event.sendTests 1 [3]]) := by
  decide

/-- C4: on a known, non-draining node whose queue is empty, a
`check_schedule(node, 0)` call while Pending is non-empty dispatches
exactly `maxQueueSize - 0 = 2` indices taken in order from the front of
Pending, removing them from Pending and appending them to the node queue;
when Pending holds fewer than two indices, all remaining indices are
dispatched instead and Pending is left empty. -/
theorem claim_C4 (s : SchedState) (n : Nat)
    (hmin : s.minQueueSize = 2) (hmax : s.maxQueueSize = 2)
    (hsd : n ∉ s.shuttingDown)
    (hq : lookupAssoc s.node2pending n = some [])
    (hp : s.pending ≠ []) :
    check_schedule s n 0 =
      some ({ s with
          pending := s.pending.drop 2,
          node2pending := updateAssoc s.node2pending n
            (fun q => q ++ s.pending.take 2) },
        [Event.sendTests n (s.pending.take 2)]) ∧
    lookupAssoc (updateAssoc s.node2pending n
        (fun q => q ++ s.pending.take 2)) n = some (s.pending.take 2) ∧
    (2 ≤ s.pending.length → (s.pending.take 2).length = 2) ∧
    (s.pending.length < 2 →
      s.pending.take 2 = s.pending ∧ s.pending.drop 2 = []) := by
  have hdur : ¬((1/10 : ℚ) ≤ (0 : ℚ)
      ∧ s.maxQueueSize ≤ ([] : List Nat).length) :=
    fun hcon => absurd hcon.1 (by norm_num)
  have hsend := check_schedule_send hsd hp hq (by simp [hmin]) hdur
  have harg : s.maxQueueSize - ([] : List Nat).length = 2 := by
    rw [hmax]
    rfl
  rw [harg] at hsend
  have hne : ¬(s.pending.take 2).isEmpty = true := by
    simp only [List.isEmpty_iff, List.take_eq_nil_iff]
    simp [hp]
  have hst : sendTests s n 2 =
      ({ s with
          pending := s.pending.drop 2,
          node2pending := updateAssoc s.node2pending n
            (fun q => q ++ s.pending.take 2) },
        [Event.sendTests n (s.pending.take 2)]) := by
    unfold sendTests
    rw [if_neg hne]
  refine ⟨by rw [hsend, hst], ?_, ?_, ?_⟩
  · rw [lookupAssoc_updateAssoc_self, hq]
    rfl
  · intro h2
    rw [List.length_take]
    omega
  · intro h2
    constructor
    · exact List.take_of_length_le (by omega)
    · simp only [List.drop_eq_nil_iff]
      omega

/-- The witness state for C4: node 3 idle, five pending indices. -/
def exC4 : SchedState :=
  mkState (some (List.range 5)) [0, 1, 2, 3, 4] [(3, [])]
    [(3, List.range 5)] [] []

theorem claim_C4_witness :
    check_schedule exC4 3 0 =
      some ({ exC4 with
          pending := exC4.pending.drop 2,
          node2pending := updateAssoc exC4.node2pending 3
            (fun q => q ++ exC4.pending.take 2) },
        [Event.sendTests 3 (exC4.pending.take 2)]) ∧
    lookupAssoc (updateAssoc exC4.node2pending 3
        (fun q => q ++ exC4.pending.take 2)) 3
      = some (exC4.pending.take 2) ∧
    (exC4.pending.take 2).length = 2 := by
  have h := claim_C4 exC4 3 rfl rfl (by decide) rfl (by decide)
  exact ⟨h.1, h.2.1, h.2.2.1 (by decide)⟩

/-- C5: on a known node with Pending empty and the node not yet draining,
`check_schedule` sends the shutdown signal exactly once (a single shutdown
event, the draining flag becomes set); any further `check_schedule` call on
the now-draining node, with any duration, is a no-op that leaves the state
unchanged and emits no event, so shutdown is never re-sent to a draining
node. -/
theorem claim_C5 (s : SchedState) (n : Nat)
    (hp : s.pending = []) (hsd : n ∉ s.shuttingDown) :
    ∀ d d2 : ℚ,
      check_schedule s n d
        = some ({ s with shuttingDown := n :: s.shuttingDown },
            [Event.shutdown n]) ∧
      check_schedule { s with shuttingDown := n :: s.shuttingDown } n d2
        = some ({ s with shuttingDown := n :: s.shuttingDown }, []) := by
  intro d d2
  constructor
  · rw [check_schedule_shutdown d hsd hp]
    rfl
  · exact check_schedule_drain d2 (List.mem_cons_self n s.shuttingDown)

/-- The witness state for C5: node 4 still active, no pending work. -/
def exC5 : SchedState :=
  mkState (some [0]) [] [(4, [])] [(4, [0])] [] [0]

theorem claim_C5_witness :
    check_schedule exC5 4 0
      = some ({ exC5 with shuttingDown := [4] }, [Event.shutdown 4]) ∧
    check_schedule { exC5 with shuttingDown := [4] } 4 1
      = some ({ exC5 with shuttingDown := [4] }, []) :=
  claim_C5 exC5 4 rfl (by decide) 0 1

/-- C6: if at the first `schedule()` call two nodes reported different
collections, `schedule()` emits only the abort diagnostic: it dispatches
zero items, sends no shutdown, does not initialize Pending and does not set
the authoritative collection; the returned state is the input state
unchanged. -/
theorem claim_C6 (s : SchedState)
    (hcic : s.collection_is_completed = true) (hc : s.collection = none)
    (hsame : sameCollection s = false) :
    schedule s
      = some (s, [Event.log "**Different tests collected, aborting run**"]) :=
  schedule_abort hcic hc hsame

/-- The witness state for C6: nodes 0 and 1 reported different singleton
collections. -/
def exC6 : SchedState :=
  mkState none [] [(0, []), (1, [])] [(0, [0]), (1, [1])] [] []

theorem claim_C6_witness :
    schedule exC6
      = some (exC6, [Event.log "**Different tests collected, aborting run**"]) :=
  claim_C6 exC6 rfl rfl (by decide)

/-- C7: on a known, non-draining node whose queue already holds two items
(the configured maximum) a `check_schedule(node, 0.2)` call with non-empty
Pending sends no items and removes nothing from Pending: the state is
returned unchanged with no event. -/
theorem claim_C7 (s : SchedState) (n : Nat) (v : List Nat)
    (hmin : s.minQueueSize = 2)
    (hsd : n ∉ s.shuttingDown) (hp : s.pending ≠ [])
    (hq : lookupAssoc s.node2pending n = some v) (hlen : v.length = 2) :
    check_schedule s n (0.2 : ℚ) = some (s, []) :=
  check_schedule_full _ hsd hp hq (by omega)

/-- The witness state for C7: node 0 holds a full queue [0, 1] while
indices 2 and 3 are pending. -/
def exC7 : SchedState :=
  mkState (some (List.range 4)) [2, 3] [(0, [0, 1])] [(0, List.range 4)] [] []

theorem claim_C7_witness :
    check_schedule exC7 0 (0.2 : ℚ) = some (exC7, []) :=
  claim_C7 exC7 0 [0, 1] rfl (by decide) (by decide) rfl rfl

/-- C8: when every node agreed on an empty collection, `schedule()` adopts
the empty collection as authoritative, initializes Pending to the empty
index range, and returns with no dispatch and no shutdown signal. -/
theorem claim_C8 (s : SchedState)
    (hcic : s.collection_is_completed = true) (hc : s.collection = none)
    (hsame : sameCollection s = true) {crest : List (List Nat)}
    (hcol : s.node2collection.map Prod.snd = [] :: crest) :
    schedule s = some ({ s with collection := some [], pending := [] }, []) := by
  rw [schedule_initial hcic hc hsame hcol]
  rfl

/-- The witness state for C8: one node which reported an empty collection. -/
def exC8 : SchedState :=
  mkState none [] [(0, [])] [(0, [])] [] []

theorem claim_C8_witness :
    schedule exC8 = some ({ exC8 with collection := some [], pending := [] }, []) :=
  claim_C8 exC8 rfl rfl (by decide) rfl

/-- A state with the single known node 1 and empty Pending, used to refute
C9 at the unknown node 5. -/
def exC9 : SchedState :=
  mkState (some [0]) [] [(1, [])] [(1, [0])] [] [0]

/-- C9 counterexample: calling `check_schedule` on a node absent from the
per-node queue map while Pending is empty does not signal any error kind:
the call completes normally and even sends the shutdown signal to the
unknown node, contradicting the claim that an unknown node is rejected
regardless of whether Pending is empty. -/
theorem claim_C9_counterexample :
    check_schedule exC9 5 0
      = some ({ exC9 with shuttingDown := [5] }, [Event.shutdown 5]) := by
  decide

/-- C9 amended: an unknown node is signalled as an error (the KeyError of
the `node2pending` lookup, modelled as `none`) only when Pending is
non-empty and the node is not flagged shutting down; when the node is
flagged shutting down the call silently no-ops, and when Pending is empty
the call sends the shutdown signal to the unknown node and completes
normally. -/
theorem claim_C9_amended (s : SchedState) (n : Nat) (d : ℚ)
    (hlk : lookupAssoc s.node2pending n = none) :
    (n ∉ s.shuttingDown → s.pending ≠ [] → check_schedule s n d = none) ∧
    (n ∈ s.shuttingDown → check_schedule s n d = some (s, [])) ∧
    (n ∉ s.shuttingDown → s.pending = [] →
      check_schedule s n d = some (nodeShutdown s n)) := by
  refine ⟨?_, ?_, ?_⟩
  · intro hsd hp
    exact check_schedule_unknown d hsd hp hlk
  · intro hsd
    exact check_schedule_drain d hsd
  · intro hsd hp
    exact check_schedule_shutdown d hsd hp

/-- The witness state for the amended C9: known node 1, pending work, and
the unknown node 7. -/
def exC9b : SchedState :=
  mkState (some [0, 1]) [0, 1] [(1, [])] [(1, [0, 1])] [] []

theorem claim_C9_amended_witness :
    check_schedule exC9b 7 0 = none :=
  (claim_C9_amended exC9b 7 0 rfl).1 (by decide) (by decide)

/-- C10: because the constructor fixes `minQueueSize = maxQueueSize = 2`,
the outcome of `check_schedule` is independent of the duration argument:
from any one state and node, two calls with arbitrary durations return
identical results (same Pending, same queues, same shutdown behaviour),
since the duration-guarded withhold branch would need a queue length both
below `minQueueSize` and at least `maxQueueSize`, impossible when the two
bounds are equal. -/
theorem claim_C10 (s : SchedState) (n : Nat)
    (hmin : s.minQueueSize = 2) (hmax : s.maxQueueSize = 2)
    (d1 d2 : ℚ) :
    check_schedule s n d1 = check_schedule s n d2 := by
  by_cases hsd : n ∈ s.shuttingDown
  · rw [check_schedule_drain d1 hsd, check_schedule_drain d2 hsd]
  · by_cases hp : s.pending = []
    · rw [check_schedule_shutdown d1 hsd hp, check_schedule_shutdown d2 hsd hp]
    · cases hlk : lookupAssoc s.node2pending n with
      | none =>
          rw [check_schedule_unknown d1 hsd hp hlk,
            check_schedule_unknown d2 hsd hp hlk]
      | some v =>
          by_cases hlt : v.length < s.minQueueSize
          · have hnd1 : ¬((1/10 : ℚ) ≤ d1 ∧ s.maxQueueSize ≤ v.length) := by
              rintro ⟨_, hge⟩
              omega
            have hnd2 : ¬((1/10 : ℚ) ≤ d2 ∧ s.maxQueueSize ≤ v.length) := by
              rintro ⟨_, hge⟩
              omega
            rw [check_schedule_send hsd hp hlk hlt hnd1,
              check_schedule_send hsd hp hlk hlt hnd2]
          · rw [check_schedule_full d1 hsd hp hlk hlt,
              check_schedule_full d2 hsd hp hlk hlt]

/-- The witness state for C10: node 0 holds one item, two indices pending. -/
def exC10 : SchedState :=
  mkState (some [0, 1, 2]) [1, 2] [(0, [0])] [(0, [0, 1, 2])] [] []

theorem claim_C10_witness :
    check_schedule exC10 0 0 = check_schedule exC10 0 1 :=
  claim_C10 exC10 0 rfl rfl 0 1
